import Mathlib

/-!
# WCDB `BackupConfig`: the automatic-backup cadence policy

A shallow embedding of `objc/source/core/config/BackupConfig.cpp`.

* C++ `int` values are integers; `int` addition is `intAdd`, which wraps at 32 bits
  (twos complement), which is what the compiled code does.  Where a claim compares against
  the mathematical sum, it holds only when the sum is representable: the theorem carries that
  hypothesis and a counterexample shows the wrapped case.
* `m_backedUp` is an association list with unique keys, with the two uses the source makes
  of `std::map::operator[]`: reading (which inserts a value-initialised element for a
  missing key) and assigning.
* Calls on external collaborators (the handle, the database, the timed queue, `atexit`) are
  recorded, in program order, in a list of `Call`s returned next to the result.
* What the collaborators answer (does `beginTransaction` succeed, does the database resolve,
  what does `backup()` return, what time is it) is an input of the embedded function.
* Delays are seconds, as rationals: the source only uses `0`, `1.0`, `3` and `15.0`.
-/

namespace WCDB

/-! ## Machine integers -/

/-- Smallest value of a 32-bit C++ `int`. -/
def INT_MIN : Int := -2147483648

/-- Largest value of a 32-bit C++ `int`. -/
def INT_MAX : Int := 2147483647

/-- Reduction of an integer to the 32-bit twos-complement range. -/
def wrapInt (x : Int) : Int := (x + 2147483648) % 4294967296 - 2147483648

/-- C++ `int` addition `a + b` on a 32-bit twos-complement machine. -/
def intAdd (a b : Int) : Int := wrapInt (a + b)

/-- The integer is representable as a C++ `int`. -/
def InIntRange (x : Int) : Prop := INT_MIN ≤ x ∧ x ≤ INT_MAX

instance (x : Int) : Decidable (InIntRange x) := by
  unfold InIntRange; exact inferInstance

/-! ## Basic types -/

/-- Database path, `std::string` in the source. -/
abbrev Path := String

/-- Seconds; used for the clock and for the `delay` argument of `reQueue`. -/
abbrev Time := ℚ

/-- Modelled from the spec: the policy constants `framesIntervalForAutoBackup` and
`framesIntervalForDelayAutoBackup` are declared in `WCDB/BackupConfig.hpp`, which is not part
of the sources; the spec calls them LOW_THRESHOLD and HIGH_THRESHOLD and gives no values,
so they are parameters of the embedding. -/
structure Constants where
  /-- LOW_THRESHOLD of the spec. -/
  framesIntervalForAutoBackup : Int
  /-- HIGH_THRESHOLD of the spec. -/
  framesIntervalForDelayAutoBackup : Int
  deriving DecidableEq, Repr

/-! ## `m_backedUp`: path ↦ frame count of the last backup attempt -/

/-- The map `m_backedUp` (a `std::map` from path to `int`), as an association list. -/
abbrev BackedUp := List (Path × Int)

namespace BackedUp

/-- Lookup that does not modify the map (`find`). -/
def find (m : BackedUp) (path : Path) : Option Int := List.lookup path m

/-- The key has an entry in the map. -/
def contains (m : BackedUp) (path : Path) : Bool := (find m path).isSome

/-- The value the spec calls `backedUp`: the recorded value, `0` when there is no record. -/
def recorded (m : BackedUp) (path : Path) : Int := (find m path).getD 0

/-- Reading `m[path]` through `std::map::operator[]`: returns the mapped value; when the key is
missing, a value-initialised element (`0`) is inserted first. -/
def subscript (m : BackedUp) (path : Path) : Int × BackedUp :=
  match find m path with
  | some v => (v, m)
  | none => (0, (path, 0) :: m)

/-- The assignment `m[path] = value`: the entry of `path` is replaced or created. -/
def assign (m : BackedUp) (path : Path) (value : Int) : BackedUp :=
  (path, value) :: m.filter (fun e => e.1 != path)

end BackedUp

/-! ## `m_timedQueue` -/

/-- Pending entry of the timed queue: key, deadline, payload. -/
structure Element where
  key : Path
  expired : Time
  info : Int
  deriving DecidableEq, Repr

/-- Modelled from the spec: `TimedQueue` (`WCDB/TimedQueue.hpp`) is not part of the sources.
The scheduler of the spec holds pending (key, payload, deadline) entries, at most one live entry
per key. -/
abbrev TimedQueue := List Element

/-- Modelled from the spec: `TimedQueue::reQueue` is not part of the sources.  The spec:
"inserts or replaces the pending entry for `key` with a deadline `now + delaySeconds` and the
given payload"; "inserting a new entry for an existing path replaces it entirely (deadline
and payload), never coexists". -/
def TimedQueue.reQueue (q : TimedQueue) (now : Time) (key : Path) (delay : Time)
    (info : Int) : TimedQueue :=
  Element.mk key (now + delay) info :: q.filter (fun e => e.key != key)

/-- The pending entries of a key. -/
def TimedQueue.pending (q : TimedQueue) (key : Path) : List Element :=
  q.filter (fun e => e.key == key)

/-! ## Calls on collaborators -/

/-- The member function bound into a notification. -/
inductive Callback
  | willCheckpoint
  | onCommitted
  deriving DecidableEq, Repr

/-- One call made on a collaborator.  `commitTransaction` is the commit of the engine; this
translation unit never calls it, and it is listed so that its absence can be stated. -/
inductive Call
  | beginTransaction
  | rollbackTransaction
  | commitTransaction
  | setNotificationWhenCheckpoint (frames : Int) (name : String) (callback : Callback)
  | setNotificationWhenCommitted (frames : Int) (name : String) (callback : Callback)
  | atexit
  | databaseWithExistingPath (path : Path)
  | isOpened (path : Path)
  | backup (path : Path)
  | reQueue (path : Path) (delay : Time) (frames : Int)
  deriving DecidableEq, Repr

/-- The call is a `reQueue`. -/
def Call.isReQueue : Call → Bool
  | .reQueue _ _ _ => true
  | _ => false

/-- The call is a `backup()`. -/
def Call.isBackup : Call → Bool
  | .backup _ => true
  | _ => false

/-- The call registers a commit notification. -/
def Call.isCommittedRegistration : Call → Bool
  | .setNotificationWhenCommitted _ _ _ => true
  | _ => false

/-! ## Answers of the collaborators -/

/-- A handle: the path, and what its fallible operations return when called. -/
structure Handle where
  path : Path
  /-- Value returned by `beginTransaction()`. -/
  beginTransaction : Bool
  /-- Value returned by `setNotificationWhenCheckpoint(...)`. -/
  setNotificationWhenCheckpoint : Bool
  deriving DecidableEq, Repr

/-- A resolved database: what `isOpened()` and `backup()` return when called. -/
structure Database where
  isOpened : Bool
  backup : Bool
  deriving DecidableEq, Repr

/-- The process environment seen by one call of `onTimed`: the value `s_exit->load()` yields,
what `Database::databaseWithExistingPath` resolves to (`none` is `nullptr`), and the clock
the timed queue reads. -/
structure Env where
  s_exit : Bool
  databaseWithExistingPath : Path → Option Database
  now : Time

/-! ## `BackupConfig` -/

/-- The data members of `BackupConfig` the callbacks use. -/
structure BackupConfig where
  m_backedUp : BackedUp
  m_timedQueue : TimedQueue
  deriving DecidableEq, Repr

/-- What a member function returns, the object afterwards, and the calls it made. -/
structure Outcome where
  result : Bool
  state : BackupConfig
  calls : List Call
  deriving DecidableEq, Repr

namespace BackupConfig

/-- The call `m_timedQueue.reQueue(path, delay, frames)` on the object. -/
def reQueue (self : BackupConfig) (now : Time) (path : Path) (delay : Time) (frames : Int) :
    BackupConfig :=
  BackupConfig.mk self.m_backedUp (self.m_timedQueue.reQueue now path delay frames)

/-- Embedding of `BackupConfig::invoke`: the result and the calls made on the handle. -/
def invoke (handle : Handle) : Bool × List Call :=
  if !handle.beginTransaction then
    (false, [Call.beginTransaction])
  else
    let result := handle.setNotificationWhenCheckpoint
    let probe := [Call.beginTransaction,
      Call.setNotificationWhenCheckpoint 0 "backup" Callback.willCheckpoint,
      Call.rollbackTransaction]
    if result then
      (result, probe ++ [Call.setNotificationWhenCommitted 0 "backup" Callback.onCommitted])
    else
      (result, probe)

/-- Embedding of `BackupConfig::onTimed`. -/
def onTimed (env : Env) (self : BackupConfig) (path : Path) (frames : Int) : Outcome :=
  if env.s_exit then
    Outcome.mk true self [Call.atexit]
  else
    match env.databaseWithExistingPath path with
    | none => Outcome.mk true self [Call.atexit, Call.databaseWithExistingPath path]
    | some database =>
      if !database.isOpened then
        Outcome.mk true self
          [Call.atexit, Call.databaseWithExistingPath path, Call.isOpened path]
      else
        let result := database.backup
        let resolved := [Call.atexit, Call.databaseWithExistingPath path, Call.isOpened path,
          Call.backup path]
        if !result then
          -- retry after 15.0s if failed
          let self1 := self.reQueue env.now path 15 frames
          Outcome.mk result
            (BackupConfig.mk (self1.m_backedUp.assign path frames) self1.m_timedQueue)
            (resolved ++ [Call.reQueue path 15 frames])
        else
          Outcome.mk result
            (BackupConfig.mk (self.m_backedUp.assign path frames) self.m_timedQueue)
            resolved

/-- Embedding of `BackupConfig::onCommitted`. -/
def onCommitted (c : Constants) (now : Time) (self : BackupConfig) (handle : Handle)
    (frames : Int) : Outcome :=
  let path := handle.path
  let read := self.m_backedUp.subscript path
  let backedUp := read.1
  let self1 := BackupConfig.mk read.2 self.m_timedQueue
  if frames > intAdd backedUp c.framesIntervalForDelayAutoBackup then
    Outcome.mk true (self1.reQueue now path 1 frames) [Call.reQueue path 1 frames]
  else if frames > intAdd backedUp c.framesIntervalForAutoBackup || frames < backedUp then
    Outcome.mk true (self1.reQueue now path 0 frames) [Call.reQueue path 0 frames]
  else
    -- backed up will happen after 15s if no more write operation
    Outcome.mk true (self1.reQueue now path 15 frames) [Call.reQueue path 15 frames]

/-- Embedding of `BackupConfig::willCheckpoint`. -/
def willCheckpoint (now : Time) (self : BackupConfig) (handle : Handle) (frames : Int) :
    Outcome :=
  let path := handle.path
  Outcome.mk true (self.reQueue now path 3 frames) [Call.reQueue path 3 frames]

end BackupConfig

/-- The delay `onCommitted` passes to `reQueue`, from the recorded value and the frame count,
with the `int` sums of the source. -/
def BackupConfig.committedDelay (c : Constants) (backedUp frames : Int) : Time :=
  if frames > intAdd backedUp c.framesIntervalForDelayAutoBackup then 1
  else if frames > intAdd backedUp c.framesIntervalForAutoBackup ∨ frames < backedUp then 0
  else 15

/-- The delay table as the spec words it for `onCommitted`, with the sums `backedUp + HIGH`
and `backedUp + LOW` taken in the integers (no wrapping). -/
def specCommittedDelay (c : Constants) (backedUp frames : Int) : Time :=
  if frames > backedUp + c.framesIntervalForDelayAutoBackup then 1
  else if frames > backedUp + c.framesIntervalForAutoBackup ∨ frames < backedUp then 0
  else 15

/-- Environment of the examples: no exit in progress, every path resolves to `database`, the
clock reads 10. -/
def exampleEnv (database : Database) : Env := Env.mk false (fun _ => some database) 10

/-! ## Helper lemmas -/

theorem wrapInt_of_inIntRange (x : Int) (h : InIntRange x) : wrapInt x = x := by
  unfold InIntRange INT_MIN INT_MAX at h
  unfold wrapInt
  omega

theorem intAdd_of_inIntRange (a b : Int) (h : InIntRange (a + b)) : intAdd a b = a + b :=
  wrapInt_of_inIntRange (a + b) h

theorem BackedUp.subscript_fst (m : BackedUp) (path : Path) :
    (BackedUp.subscript m path).1 = BackedUp.recorded m path := by
  unfold BackedUp.subscript BackedUp.recorded
  cases h : BackedUp.find m path <;> simp

theorem BackedUp.lookup_filter_ne (m : BackedUp) (path other : Path) (h : other ≠ path) :
    List.lookup other (m.filter (fun e => e.1 != path)) = List.lookup other m := by
  induction m with
  | nil => rfl
  | cons e es ih =>
    obtain ⟨k, v⟩ := e
    by_cases hk : k = path
    · subst hk
      have hne : (other == k) = false := by simpa using h
      simp [List.filter_cons, List.lookup_cons, hne, ih]
    · have hkeep : (k != path) = true := by simpa using hk
      simp only [List.filter_cons, hkeep, if_true, List.lookup_cons, ih]

theorem BackedUp.find_assign_self (m : BackedUp) (path : Path) (value : Int) :
    BackedUp.find (BackedUp.assign m path value) path = some value := by
  simp [BackedUp.find, BackedUp.assign, List.lookup_cons]

theorem BackedUp.find_assign_ne (m : BackedUp) (path other : Path) (value : Int)
    (h : other ≠ path) :
    BackedUp.find (BackedUp.assign m path value) other = BackedUp.find m other := by
  have hne : (other == path) = false := by simpa using h
  simp [BackedUp.find, BackedUp.assign, List.lookup_cons, hne,
    BackedUp.lookup_filter_ne m path other h]

theorem TimedQueue.pending_reQueue (q : TimedQueue) (now : Time) (key : Path) (delay : Time)
    (info : Int) :
    TimedQueue.pending (TimedQueue.reQueue q now key delay info) key
      = [Element.mk key (now + delay) info] := by
  simp [TimedQueue.pending, TimedQueue.reQueue, List.filter_cons, List.filter_filter]

/-! ## `onCommitted`: the cadence tiers -/

theorem BackupConfig.onCommitted_result (c : Constants) (now : Time) (self : BackupConfig)
    (handle : Handle) (frames : Int) :
    (BackupConfig.onCommitted c now self handle frames).result = true := by
  unfold BackupConfig.onCommitted
  simp only []
  split_ifs <;> rfl

theorem BackupConfig.onCommitted_calls (c : Constants) (now : Time) (self : BackupConfig)
    (handle : Handle) (frames : Int) :
    (BackupConfig.onCommitted c now self handle frames).calls =
      [Call.reQueue handle.path
        (BackupConfig.committedDelay c (self.m_backedUp.recorded handle.path) frames)
        frames] := by
  unfold BackupConfig.onCommitted BackupConfig.committedDelay
  simp only [BackedUp.subscript_fst, Bool.or_eq_true, decide_eq_true_eq]
  split_ifs <;> rfl

theorem BackupConfig.onCommitted_backedUp (c : Constants) (now : Time) (self : BackupConfig)
    (handle : Handle) (frames : Int) :
    (BackupConfig.onCommitted c now self handle frames).state.m_backedUp =
      (self.m_backedUp.subscript handle.path).2 := by
  unfold BackupConfig.onCommitted
  simp only []
  split_ifs <;> rfl

theorem BackedUp.recorded_of_find (m : BackedUp) (path : Path) (value : Int)
    (h : BackedUp.find m path = some value) : BackedUp.recorded m path = value := by
  simp [BackedUp.recorded, h]

/-- C1: for every path, frame count and recorded value `backedUp` (0 when the path has no
record), as long as the two `int` sums `backedUp + framesIntervalForDelayAutoBackup` and
`backedUp + framesIntervalForAutoBackup` are representable, `onCommitted` returns true and makes
exactly one `reQueue` call, for the path of the handle and with payload `frames`, whose delay is 1.0
when `frames > backedUp + HIGH`, otherwise 0 when `frames > backedUp + LOW` or
`frames < backedUp`, otherwise 15.0. -/
theorem onCommitted_tiers (c : Constants) (now : Time) (self : BackupConfig) (handle : Handle)
    (frames : Int)
    (hHigh : InIntRange
      (self.m_backedUp.recorded handle.path + c.framesIntervalForDelayAutoBackup))
    (hLow : InIntRange (self.m_backedUp.recorded handle.path + c.framesIntervalForAutoBackup)) :
    (BackupConfig.onCommitted c now self handle frames).result = true ∧
    (BackupConfig.onCommitted c now self handle frames).calls =
      [Call.reQueue handle.path
        (if frames > self.m_backedUp.recorded handle.path + c.framesIntervalForDelayAutoBackup
          then 1
         else if frames > self.m_backedUp.recorded handle.path + c.framesIntervalForAutoBackup
            ∨ frames < self.m_backedUp.recorded handle.path then 0
         else 15)
        frames] := by
  refine ⟨BackupConfig.onCommitted_result c now self handle frames, ?_⟩
  rw [BackupConfig.onCommitted_calls]
  unfold BackupConfig.committedDelay
  rw [intAdd_of_inIntRange _ _ hHigh, intAdd_of_inIntRange _ _ hLow]

/-- Witness of C1: one record `a ↦ 100`, thresholds 100 and 300, a commit at 450 frames. -/
theorem onCommitted_tiers_witness :
    (BackupConfig.onCommitted ⟨100, 300⟩ 0 ⟨[("a", 100)], []⟩ ⟨"a", true, true⟩ 450).result
      = true ∧
    (BackupConfig.onCommitted ⟨100, 300⟩ 0 ⟨[("a", 100)], []⟩ ⟨"a", true, true⟩ 450).calls
      = [Call.reQueue "a" 1 450] :=
  onCommitted_tiers ⟨100, 300⟩ 0 ⟨[("a", 100)], []⟩ ⟨"a", true, true⟩ 450
    (by decide) (by decide)

/-- Counterexample to C1 as worded (every frame count, every recorded value): thresholds 100
and 300, 2147483547 recorded for `a`, a commit at 2147483647 frames.  Both values are
representable `int`s and the table of the spec gives 15.0, but the `int` sum
`backedUp + 300` wraps to a negative value, so `onCommitted` requeues with delay 1.0. -/
theorem onCommitted_tiers_counterexample :
    InIntRange 2147483547 ∧ InIntRange 2147483647 ∧
    BackedUp.recorded [("a", 2147483547)] "a" = 2147483547 ∧
    specCommittedDelay ⟨100, 300⟩ 2147483547 2147483647 = 15 ∧
    (BackupConfig.onCommitted ⟨100, 300⟩ 0 ⟨[("a", 2147483547)], []⟩ ⟨"a", true, true⟩
        2147483647).calls = [Call.reQueue "a" 1 2147483647] ∧
    (BackupConfig.onCommitted ⟨100, 300⟩ 0 ⟨[("a", 2147483547)], []⟩ ⟨"a", true, true⟩
        2147483647).calls
      ≠ [Call.reQueue "a" (specCommittedDelay ⟨100, 300⟩ 2147483547 2147483647)
          2147483647] := by
  refine ⟨by decide, by decide, by decide, by decide, by decide, by decide⟩

/-- C2: with 100 recorded for the path, thresholds LOW < HIGH of at least 5 and frame counts
that are representable `int`s, a commit at `100 + LOW + 1` frames requeues with delay 0, a
commit at `100 + HIGH + 1` frames requeues with delay 1.0, and a commit at 105 frames requeues
with delay 15.0. -/
theorem onCommitted_debounce (c : Constants) (now : Time) (self : BackupConfig)
    (handle : Handle)
    (hrec : self.m_backedUp.find handle.path = some 100)
    (hOrder : c.framesIntervalForAutoBackup < c.framesIntervalForDelayAutoBackup)
    (hLow : 5 ≤ c.framesIntervalForAutoBackup)
    (hMax : InIntRange (100 + c.framesIntervalForDelayAutoBackup + 1)) :
    (BackupConfig.onCommitted c now self handle
        (100 + c.framesIntervalForAutoBackup + 1)).calls
      = [Call.reQueue handle.path 0 (100 + c.framesIntervalForAutoBackup + 1)] ∧
    (BackupConfig.onCommitted c now self handle
        (100 + c.framesIntervalForDelayAutoBackup + 1)).calls
      = [Call.reQueue handle.path 1 (100 + c.framesIntervalForDelayAutoBackup + 1)] ∧
    (BackupConfig.onCommitted c now self handle 105).calls
      = [Call.reQueue handle.path 15 105] := by
  have hr := BackedUp.recorded_of_find _ _ _ hrec
  have hH : InIntRange (100 + c.framesIntervalForDelayAutoBackup) := by
    unfold InIntRange INT_MIN INT_MAX at *; omega
  have hL : InIntRange (100 + c.framesIntervalForAutoBackup) := by
    unfold InIntRange INT_MIN INT_MAX at *; omega
  simp only [BackupConfig.onCommitted_calls, hr, BackupConfig.committedDelay,
    intAdd_of_inIntRange _ _ hH, intAdd_of_inIntRange _ _ hL]
  refine ⟨?_, ?_, ?_⟩ <;> split_ifs <;> first | rfl | (exfalso; omega)

/-- Witness of C2: thresholds 100 and 300. -/
theorem onCommitted_debounce_witness :
    (BackupConfig.onCommitted ⟨100, 300⟩ 0 ⟨[("a", 100)], []⟩ ⟨"a", true, true⟩ 201).calls
      = [Call.reQueue "a" 0 201] ∧
    (BackupConfig.onCommitted ⟨100, 300⟩ 0 ⟨[("a", 100)], []⟩ ⟨"a", true, true⟩ 401).calls
      = [Call.reQueue "a" 1 401] ∧
    (BackupConfig.onCommitted ⟨100, 300⟩ 0 ⟨[("a", 100)], []⟩ ⟨"a", true, true⟩ 105).calls
      = [Call.reQueue "a" 15 105] :=
  onCommitted_debounce ⟨100, 300⟩ 0 ⟨[("a", 100)], []⟩ ⟨"a", true, true⟩
    (by decide) (by decide) (by decide) (by decide)

/-- C3: when the commit reports fewer frames than recorded (`frames < backedUp`), the threshold
`framesIntervalForDelayAutoBackup` is not negative and `backedUp` plus that threshold is a
representable `int`, `onCommitted` returns true and its only call is a `reQueue` of the path
with delay 0 and payload `frames`. -/
theorem onCommitted_shrunk (c : Constants) (now : Time) (self : BackupConfig)
    (handle : Handle) (frames : Int)
    (hlt : frames < self.m_backedUp.recorded handle.path)
    (hNonneg : 0 ≤ c.framesIntervalForDelayAutoBackup)
    (hHigh : InIntRange
      (self.m_backedUp.recorded handle.path + c.framesIntervalForDelayAutoBackup)) :
    (BackupConfig.onCommitted c now self handle frames).result = true ∧
    (BackupConfig.onCommitted c now self handle frames).calls
      = [Call.reQueue handle.path 0 frames] := by
  refine ⟨BackupConfig.onCommitted_result c now self handle frames, ?_⟩
  rw [BackupConfig.onCommitted_calls]
  unfold BackupConfig.committedDelay
  rw [intAdd_of_inIntRange _ _ hHigh]
  split_ifs with h1 h2
  · exfalso; omega
  · rfl
  · exfalso; exact h2 (Or.inr hlt)

/-- Witness of C3: 100 recorded, a commit at 40 frames. -/
theorem onCommitted_shrunk_witness :
    (BackupConfig.onCommitted ⟨100, 300⟩ 0 ⟨[("a", 100)], []⟩ ⟨"a", true, true⟩ 40).result
      = true ∧
    (BackupConfig.onCommitted ⟨100, 300⟩ 0 ⟨[("a", 100)], []⟩ ⟨"a", true, true⟩ 40).calls
      = [Call.reQueue "a" 0 40] :=
  onCommitted_shrunk ⟨100, 300⟩ 0 ⟨[("a", 100)], []⟩ ⟨"a", true, true⟩ 40
    (by decide) (by decide) (by decide)

/-- Counterexample to C3 as worded (every `frames < backedUp`): thresholds 100 and 300,
2147483647 recorded for `a`, a commit at 0 frames.  The frame count shrank, but the `int` sum
`backedUp + 300` wraps to a negative value, so `onCommitted` picks the 1.0 tier, not delay 0. -/
theorem onCommitted_shrunk_counterexample :
    InIntRange 2147483647 ∧ InIntRange 0 ∧
    (0 : Int) < BackedUp.recorded [("a", 2147483647)] "a" ∧
    (BackupConfig.onCommitted ⟨100, 300⟩ 0 ⟨[("a", 2147483647)], []⟩ ⟨"a", true, true⟩
        0).calls = [Call.reQueue "a" 1 0] ∧
    (BackupConfig.onCommitted ⟨100, 300⟩ 0 ⟨[("a", 2147483647)], []⟩ ⟨"a", true, true⟩
        0).calls ≠ [Call.reQueue "a" 0 0] := by
  refine ⟨by decide, by decide, by decide, by decide, by decide⟩

/-! ## `onTimed`: the backup attempt -/

theorem BackupConfig.onTimed_resolved_eq (env : Env) (self : BackupConfig) (path : Path)
    (frames : Int) (database : Database)
    (hExit : env.s_exit = false)
    (hResolved : env.databaseWithExistingPath path = some database)
    (hOpened : database.isOpened = true) :
    BackupConfig.onTimed env self path frames =
      Outcome.mk database.backup
        (BackupConfig.mk (self.m_backedUp.assign path frames)
          (if database.backup then self.m_timedQueue
           else self.m_timedQueue.reQueue env.now path 15 frames))
        ([Call.atexit, Call.databaseWithExistingPath path, Call.isOpened path,
          Call.backup path]
          ++ (if database.backup then [] else [Call.reQueue path 15 frames])) := by
  unfold BackupConfig.onTimed
  simp only [hExit, hResolved, hOpened]
  cases hb : database.backup <;> simp [BackupConfig.reQueue]

/-- C4: when the exit flag is not set and the database of the path resolves and is opened,
`onTimed` calls `backup()` exactly once, returns what `backup()` returned, leaves the record
of the path equal to `frames` whatever `backup()` returned, leaves the record of every other
path as it was, and calls `reQueue` (for the path, with delay 15.0 and payload `frames`)
exactly when `backup()` returned false, in which case the queue is requeued accordingly. -/
theorem onTimed_attempt (env : Env) (self : BackupConfig) (path : Path) (frames : Int)
    (database : Database)
    (hExit : env.s_exit = false)
    (hResolved : env.databaseWithExistingPath path = some database)
    (hOpened : database.isOpened = true) :
    (BackupConfig.onTimed env self path frames).calls.filter Call.isBackup
      = [Call.backup path] ∧
    (BackupConfig.onTimed env self path frames).result = database.backup ∧
    (BackupConfig.onTimed env self path frames).state.m_backedUp.find path = some frames ∧
    (∀ other : Path, other ≠ path →
      (BackupConfig.onTimed env self path frames).state.m_backedUp.find other
        = self.m_backedUp.find other) ∧
    (BackupConfig.onTimed env self path frames).calls.filter Call.isReQueue
      = (if database.backup then [] else [Call.reQueue path 15 frames]) ∧
    (BackupConfig.onTimed env self path frames).state.m_timedQueue
      = (if database.backup then self.m_timedQueue
         else self.m_timedQueue.reQueue env.now path 15 frames) := by
  rw [BackupConfig.onTimed_resolved_eq env self path frames database hExit hResolved hOpened]
  refine ⟨?_, rfl, BackedUp.find_assign_self _ _ _, ?_, ?_, rfl⟩
  · cases database.backup <;> simp [List.filter_cons, Call.isBackup]
  · intro other hne
    exact BackedUp.find_assign_ne _ _ _ _ hne
  · cases database.backup <;> simp [List.filter_cons, Call.isReQueue]

/-- Witness of C4: the backup of `a` fails at 7 frames, with 3 recorded for `a`. -/
theorem onTimed_attempt_witness :
    (BackupConfig.onTimed (exampleEnv ⟨true, false⟩) ⟨[("a", 3), ("b", 5)], []⟩ "a" 7).calls.filter
        Call.isBackup = [Call.backup "a"] ∧
    (BackupConfig.onTimed (exampleEnv ⟨true, false⟩) ⟨[("a", 3), ("b", 5)], []⟩ "a" 7).result
      = false ∧
    (BackupConfig.onTimed (exampleEnv ⟨true, false⟩) ⟨[("a", 3), ("b", 5)], []⟩ "a"
        7).state.m_backedUp.find "a" = some 7 ∧
    (BackupConfig.onTimed (exampleEnv ⟨true, false⟩) ⟨[("a", 3), ("b", 5)], []⟩ "a"
        7).state.m_backedUp.find "b" = some 5 ∧
    (BackupConfig.onTimed (exampleEnv ⟨true, false⟩) ⟨[("a", 3), ("b", 5)], []⟩ "a" 7).calls.filter
        Call.isReQueue = [Call.reQueue "a" 15 7] :=
  have h := onTimed_attempt (exampleEnv ⟨true, false⟩) ⟨[("a", 3), ("b", 5)], []⟩ "a" 7
    ⟨true, false⟩ rfl rfl rfl
  ⟨h.1, h.2.1, h.2.2.1, h.2.2.2.1 "b" (by decide), h.2.2.2.2.1⟩

/-- C5: when the exit flag is set, or the database of the path does not resolve, or it resolves
but is not opened, `onTimed` returns true, makes no `backup()` call and no `reQueue` call, and
leaves the object (the record and the queue) as it was; and when the exit flag is set the
database is not even resolved: the only call is the `atexit` registration. -/
theorem onTimed_noop (env : Env) (self : BackupConfig) (path : Path) (frames : Int)
    (h : env.s_exit = true ∨ env.databaseWithExistingPath path = none ∨
      ∃ database, env.databaseWithExistingPath path = some database ∧
        database.isOpened = false) :
    (BackupConfig.onTimed env self path frames).result = true ∧
    (BackupConfig.onTimed env self path frames).calls.filter Call.isBackup = [] ∧
    (BackupConfig.onTimed env self path frames).calls.filter Call.isReQueue = [] ∧
    (BackupConfig.onTimed env self path frames).state = self ∧
    (env.s_exit = true →
      (BackupConfig.onTimed env self path frames).calls = [Call.atexit]) := by
  unfold BackupConfig.onTimed
  by_cases hExit : env.s_exit = true
  · simp [hExit, Call.isBackup, Call.isReQueue]
  · rcases h with h | h | ⟨database, hdb, hclosed⟩
    · exact absurd h hExit
    · simp [hExit, h, Call.isBackup, Call.isReQueue]
    · simp [hExit, hdb, hclosed, Call.isBackup, Call.isReQueue]

/-- Witness of C5: the database of `a` resolves but is closed. -/
theorem onTimed_noop_witness :
    (BackupConfig.onTimed (exampleEnv ⟨false, true⟩) ⟨[("a", 3)], []⟩ "a" 7).result = true ∧
    (BackupConfig.onTimed (exampleEnv ⟨false, true⟩) ⟨[("a", 3)], []⟩ "a" 7).calls.filter
        Call.isBackup = [] ∧
    (BackupConfig.onTimed (exampleEnv ⟨false, true⟩) ⟨[("a", 3)], []⟩ "a" 7).calls.filter
        Call.isReQueue = [] ∧
    (BackupConfig.onTimed (exampleEnv ⟨false, true⟩) ⟨[("a", 3)], []⟩ "a" 7).state
      = ⟨[("a", 3)], []⟩ :=
  have h := onTimed_noop (exampleEnv ⟨false, true⟩) ⟨[("a", 3)], []⟩ "a" 7
    (Or.inr (Or.inr ⟨⟨false, true⟩, rfl, rfl⟩))
  ⟨h.1, h.2.1, h.2.2.1, h.2.2.2.1⟩

/-! ## `willCheckpoint` -/

/-- C6: for every path, frame count, record and prior queue (with or without pending entries
for the path, whatever their deadlines and payloads), `willCheckpoint` returns true, makes
exactly one call, `reQueue` of the path with delay 3 and payload `frames`, leaves `m_backedUp`
as it was, and afterwards the queue holds exactly one pending entry for the path, with
deadline `now + 3` and payload `frames`. -/
theorem willCheckpoint_override (now : Time) (self : BackupConfig) (handle : Handle)
    (frames : Int) :
    (BackupConfig.willCheckpoint now self handle frames).result = true ∧
    (BackupConfig.willCheckpoint now self handle frames).calls
      = [Call.reQueue handle.path 3 frames] ∧
    (BackupConfig.willCheckpoint now self handle frames).state.m_backedUp
      = self.m_backedUp ∧
    (BackupConfig.willCheckpoint now self handle frames).state.m_timedQueue.pending handle.path
      = [Element.mk handle.path (now + 3) frames] :=
  ⟨rfl, rfl, rfl, TimedQueue.pending_reQueue self.m_timedQueue now handle.path 3 frames⟩

/-! ## `invoke` -/

/-- C7: `invoke` returns true exactly when `beginTransaction` and the checkpoint-notification
registration both succeeded; a commit notification is registered (once, for `onCommitted`)
when `invoke` returns true and not at all otherwise; `rollbackTransaction` is called once when
`beginTransaction` succeeded and not at all otherwise; `commitTransaction` is never called. -/
theorem invoke_contract (handle : Handle) :
    ((BackupConfig.invoke handle).1 = true ↔
      handle.beginTransaction = true ∧ handle.setNotificationWhenCheckpoint = true) ∧
    (BackupConfig.invoke handle).2.filter Call.isCommittedRegistration
      = (if (BackupConfig.invoke handle).1
          then [Call.setNotificationWhenCommitted 0 "backup" Callback.onCommitted] else []) ∧
    (BackupConfig.invoke handle).2.count Call.rollbackTransaction
      = (if handle.beginTransaction then 1 else 0) ∧
    Call.commitTransaction ∉ (BackupConfig.invoke handle).2 := by
  obtain ⟨path, b, r⟩ := handle
  cases b <;> cases r <;>
    simp [BackupConfig.invoke, Call.isCommittedRegistration, List.filter_cons, List.count_cons]

/-! ## `m_backedUp` is written by `onCommitted` -/

/-- C8: a commit for a path without a record leaves the map with one more key: the read
`m_backedUp[path]` in `onCommitted` inserts the entry `path ↦ 0`, so the path has an entry
afterwards although no backup was attempted. -/
theorem onCommitted_inserts_missing_key (c : Constants) (now : Time) (self : BackupConfig)
    (handle : Handle) (frames : Int)
    (hAbsent : self.m_backedUp.contains handle.path = false) :
    (BackupConfig.onCommitted c now self handle frames).state.m_backedUp
      = (handle.path, 0) :: self.m_backedUp ∧
    (BackupConfig.onCommitted c now self handle frames).state.m_backedUp.contains handle.path
      = true := by
  have hfind : BackedUp.find self.m_backedUp handle.path = none := by
    simpa [BackedUp.contains] using hAbsent
  have hmap : (BackupConfig.onCommitted c now self handle frames).state.m_backedUp
      = (handle.path, 0) :: self.m_backedUp := by
    rw [BackupConfig.onCommitted_backedUp]
    simp [BackedUp.subscript, hfind]
  refine ⟨hmap, ?_⟩
  rw [hmap]
  simp [BackedUp.contains, BackedUp.find, List.lookup_cons]

/-- Witness of C8: the first commit for `a`, on an object without records. -/
theorem onCommitted_inserts_missing_key_witness :
    (BackupConfig.onCommitted ⟨100, 300⟩ 0 ⟨[], []⟩ ⟨"a", true, true⟩ 1).state.m_backedUp
      = [("a", 0)] ∧
    (BackupConfig.onCommitted ⟨100, 300⟩ 0 ⟨[], []⟩ ⟨"a", true, true⟩ 1).state.m_backedUp.contains
      "a" = true :=
  onCommitted_inserts_missing_key ⟨100, 300⟩ 0 ⟨[], []⟩ ⟨"a", true, true⟩ 1 (by decide)

/-! ## A commit at the attempted frame count -/

/-- C10: after `onTimed` attempted a backup of the path at `frames` (exit flag not set,
database resolved and opened; `backup()` succeeding or failing), a commit for the same path
reporting the same `frames` requeues with delay 15.0, as long as both thresholds are not
negative and `frames` plus each threshold is a representable `int`. -/
theorem onCommitted_after_onTimed (c : Constants) (env : Env) (now : Time)
    (self : BackupConfig) (handle : Handle) (frames : Int) (database : Database)
    (hExit : env.s_exit = false)
    (hResolved : env.databaseWithExistingPath handle.path = some database)
    (hOpened : database.isOpened = true)
    (hLow0 : 0 ≤ c.framesIntervalForAutoBackup)
    (hHigh0 : 0 ≤ c.framesIntervalForDelayAutoBackup)
    (hLow : InIntRange (frames + c.framesIntervalForAutoBackup))
    (hHigh : InIntRange (frames + c.framesIntervalForDelayAutoBackup)) :
    (BackupConfig.onTimed env self handle.path frames).state.m_backedUp.recorded handle.path
      = frames ∧
    (BackupConfig.onCommitted c now (BackupConfig.onTimed env self handle.path frames).state
        handle frames).calls
      = [Call.reQueue handle.path 15 frames] := by
  have hrec :
      (BackupConfig.onTimed env self handle.path frames).state.m_backedUp.recorded handle.path
        = frames := by
    rw [BackupConfig.onTimed_resolved_eq env self handle.path frames database hExit hResolved
      hOpened]
    exact BackedUp.recorded_of_find _ _ _ (BackedUp.find_assign_self _ _ _)
  refine ⟨hrec, ?_⟩
  rw [BackupConfig.onCommitted_calls, hrec]
  unfold BackupConfig.committedDelay
  rw [intAdd_of_inIntRange _ _ hHigh, intAdd_of_inIntRange _ _ hLow]
  split_ifs with h1 h2
  · exfalso; omega
  · exfalso; omega
  · rfl

/-- Witness of C10: the backup of `a` fails at 500 frames, then a commit reports 500. -/
theorem onCommitted_after_onTimed_witness :
    (BackupConfig.onTimed (exampleEnv ⟨true, false⟩) ⟨[("a", 100)], []⟩ "a"
        500).state.m_backedUp.recorded "a" = 500 ∧
    (BackupConfig.onCommitted ⟨100, 300⟩ 20
        (BackupConfig.onTimed (exampleEnv ⟨true, false⟩) ⟨[("a", 100)], []⟩ "a" 500).state
        ⟨"a", true, true⟩ 500).calls
      = [Call.reQueue "a" 15 500] :=
  onCommitted_after_onTimed ⟨100, 300⟩ (exampleEnv ⟨true, false⟩) 20 ⟨[("a", 100)], []⟩
    ⟨"a", true, true⟩ 500 ⟨true, false⟩ rfl rfl rfl (by decide) (by decide) (by decide)
    (by decide)

/-- Counterexample to C10 as worded (every `frames`): thresholds 100 and 300, the backup of
`a` is attempted at 2147483647 frames and a commit then reports 2147483647.  The record is
2147483647, the `int` sum `frames + 300` wraps to a negative value, and `onCommitted` requeues
with delay 1.0, not 15.0. -/
theorem onCommitted_after_onTimed_counterexample :
    InIntRange 2147483647 ∧
    (BackupConfig.onTimed (exampleEnv ⟨true, true⟩) ⟨[], []⟩ "a"
        2147483647).state.m_backedUp.recorded "a" = 2147483647 ∧
    (BackupConfig.onCommitted ⟨100, 300⟩ 20
        (BackupConfig.onTimed (exampleEnv ⟨true, true⟩) ⟨[], []⟩ "a" 2147483647).state
        ⟨"a", true, true⟩ 2147483647).calls
      = [Call.reQueue "a" 1 2147483647] ∧
    (BackupConfig.onCommitted ⟨100, 300⟩ 20
        (BackupConfig.onTimed (exampleEnv ⟨true, true⟩) ⟨[], []⟩ "a" 2147483647).state
        ⟨"a", true, true⟩ 2147483647).calls
      ≠ [Call.reQueue "a" 15 2147483647] := by
  refine ⟨by decide, by decide, by decide, by decide⟩

end WCDB
